import Mathlib

/-!
Verification development for the Improved Simple Computer simulator
(`improved_simple_computer_control_cpu_2.cpp`).

The C++ program simulates a microprogrammed bus-architecture CPU.  We give a
shallow embedding: machine words (`WORD`, 16 bits; `DWORD`, 32 bits) become
`Nat` with the masks the source applies written out explicitly; the mutable
component state becomes a `State` structure; each clock phase
(`RisingEdge` / `HighLevel` / `FallingEdge` / `LowLevel`) becomes a function
`State → State`, applied to the components in the order they are pushed into
`Computer::mComponents` (sReg, pcReg, accReg, gprReg, flgReg, oprReg, marReg,
gBus, alu, ram, ctrl).  `exit(0)` in `Control::RisingEdge` is modelled by a
`halted` flag: the tick that decodes the halt bit performs no further phase,
and a halted state is a fixed point of `tick`.
-/

set_option maxRecDepth 100000

namespace ISC

/-! ## Control-line constants (the `#define`s at the top of the source) -/

def GPR_M  : Nat := 0x00000001
def INCPC  : Nat := 0x00000002
def GPR_PC : Nat := 0x00000004
def PC_MAR : Nat := 0x00000008
def GPR_MAR : Nat := 0x00000010
def GPR_OP : Nat := 0x00000020
def M_GPR  : Nat := 0x00000040
def A_GPR  : Nat := 0x00000080
def PC_GPR : Nat := 0x00000100
def INCGPR : Nat := 0x00000200
def ADD    : Nat := 0x00000400
def CLRA   : Nat := 0x00000800
def ROR    : Nat := 0x00001000
def ROL    : Nat := 0x00002000
def CLRF   : Nat := 0x00004000
def COMF   : Nat := 0x00008000
def COMA   : Nat := 0x00010000
def INCA   : Nat := 0x00020000
def INCPCF : Nat := 0x10000000
def INCPCZ : Nat := 0x20000000
def CLRSC  : Nat := 0x40000000
def HLT    : Nat := 0x80000000

/-! ## Machine state

One field per mutable storage cell of the simulation:
the shared data bus (`Computer::mBusLines`), the control bus
(`Computer::mCtrlLines`), the seven `Register` instances (each `mStore`,
kept below its `mBitMask` by the operations themselves, exactly as in the
source), the adder's internal sum buffer (`Adder::mStore`), the RAM array
(`Memory::mStore`, 128 words), and the halt flag modelling `exit(0)`. -/

structure State where
  bus : Nat          -- Computer::mBusLines (WORD)
  ctrl : Nat         -- Computer::mCtrlLines (DWORD)
  sreg : Nat         -- step counter, bitmask 0x000f, increment mask 0xffff
  pc : Nat           -- program counter, bitmask 0x00ff
  acc : Nat          -- accumulator, bitmask 0x0fff
  gpr : Nat          -- general-purpose register, bitmask 0x0fff
  flg : Nat          -- flag register (bit0 = F, bit1 = Z), bitmask 0x0003
  opr : Nat          -- operation register, bitmask 0x000f
  mar : Nat          -- memory address register, bitmask 0x00ff
  asum : Nat         -- Adder::mStore, the buffered sum
  mem : List Nat     -- Memory::mStore, 128 WORDs
  halted : Bool      -- models exit(0) in Control::RisingEdge
  deriving Repr, DecidableEq

/-! ## The program image (`Memory::Memory`, the active `prg` table)

17 words; the remaining cells of the 128-word array are never read before
being written in the verified run (the run stays below address 16), so we
pad with zeroes. -/

def prg : List Nat :=
  [ 0b0000000100000000,  -- 00 CRA
    0b0000101000001000,  -- 01 ADDI 0 8   LOOP
    0b0000111100001000,  -- 02 ISZ  0 8
    0b0000111100001001,  -- 03 ISZ  0 9
    0b0000110000000001,  -- 04 JMP  0 1
    0b0000101100000111,  -- 05 STA  0 7
    0b0000000000000000,  -- 06 HLT
    0b0000000000000000,  -- 07 [RES]
    0b0000000000001010,  -- 08 [ANA]
    0b0000111111111010,  -- 09 [CTR] (-6)
    0b0000000000000001,  -- 10 first addend
    0b0000000000000011,  -- 11
    0b0000000000000101,  -- 12
    0b0000000000000111,  -- 13
    0b0000000000001001,  -- 14
    0b0000000000001011,  -- 15 last addend
    0b0000000000000000 ]

def mem0 : List Nat := prg ++ List.replicate 111 0

/-! ## The microcode table (`Control::Control`, `Microprg`, 136 DWORDs) -/

def mMicrocode : List Nat :=
  [ 0b00000000000000000000000000001000,  --0 [PC_MAR]              [FETCH]
    0b00000000000000000000000001000010,  --1 [M_GPR][INCPC]        [FETCH]
    0b00000000000000000000000000100000,  --2 [GPR_OP]              [FETCH]
    0, 0, 0, 0, 0,
    0b00000000000000000000100000000000,  --8  CRA [CLRA]
    0b01000000000000000000000000000000,  --9  CRA [CLRSC]
    0, 0, 0, 0, 0, 0,
    0b00000000000000010000000000000000,  --16 CTA [COMA]
    0b01000000000000000000000000000000,  --17 CTA [CLRSC]
    0, 0, 0, 0, 0, 0,
    0b00000000000000100000000000000000,  --24 ITA [INCA]
    0b01000000000000000000000000000000,  --25 ITA [CLRSC]
    0, 0, 0, 0, 0, 0,
    0b00000000000000000100000000000000,  --32 CRF [CLRF]
    0b01000000000000000000000000000000,  --33 CRF [CLRSC]
    0, 0, 0, 0, 0, 0,
    0b00000000000000001000000000000000,  --40 CTF [COMF]
    0b01000000000000000000000000000000,  --41 CTF [CLRSC]
    0, 0, 0, 0, 0, 0,
    0b00010000000000000000000000000000,  --48 SFZ [INCPCF]
    0b01000000000000000000000000000000,  --49 SFZ [CLRSC]
    0, 0, 0, 0, 0, 0,
    0b00000000000000000001000000000000,  --56 ROR [ROR]
    0b01000000000000000000000000000000,  --57 ROR [CLRSC]
    0, 0, 0, 0, 0, 0,
    0b00000000000000000010000000000000,  --64 ROL [ROL]
    0b01000000000000000000000000000000,  --65 ROL [CLRSC]
    0, 0, 0, 0, 0, 0,
    0b00000000000000000000000000010000,  --72 ADD [GPR_MAR]
    0b00000000000000000000000001000000,  --73 ADD [M_GPR]
    0b00000000000000000000010000000000,  --74 ADD [ADD]
    0b01000000000000000000000000000000,  --75 ADD [CLRSC]
    0, 0, 0, 0,
    0b00000000000000000000000000010000,  --80 ADDI [GPR_MAR]
    0b00000000000000000000000001000000,  --81 ADDI [M_GPR]
    0b00000000000000000000000000010000,  --82 ADDI [GPR_MAR]
    0b00000000000000000000000001000000,  --83 ADDI [M_GPR]
    0b00000000000000000000010000000000,  --84 ADDI [ADD]
    0b01000000000000000000000000000000,  --85 ADDI [CLRSC]
    0, 0,
    0b00000000000000000000000000010000,  --88 STA [GPR_MAR]
    0b00000000000000000000000010000000,  --89 STA [A_GPR]
    0b00000000000000000000000000000001,  --90 STA [GPR_M]
    0b01000000000000000000000000000000,  --91 STA [CLRSC]
    0, 0, 0, 0,
    0b00000000000000000000000000000100,  --96 JMP [GPR_PC]
    0b01000000000000000000000000000000,  --97 JMP [CLRSC]
    0, 0, 0, 0, 0, 0,
    0b00000000000000000000000000010000,  --104 JMPI [GPR_MAR]
    0b00000000000000000000000001000000,  --105 JMPI [M_GPR]
    0b00000000000000000000000000000100,  --106 JMPI [GPR_PC]
    0b01000000000000000000000000000000,  --107 JMPI [CLRSC]
    0, 0, 0, 0,
    0b00000000000000000000000000010000,  --112 CSR [GPR_MAR]
    0b00000000000000000000000100000000,  --113 CSR [PC_GPR]
    0b00000000000000000000000000000001,  --114 CSR [GPR_M]
    0b00000000000000000000000000000010,  --115 CSR [INCPC]
    0b01000000000000000000000000000000,  --116 CSR [CLRSC]
    0, 0, 0,
    0b00000000000000000000000000010000,  --120 ISZ [GPR_MAR]
    0b00000000000000000000000001000000,  --121 ISZ [M_GPR]
    0b00000000000000000000001000000000,  --122 ISZ [INCGPR]
    0b00000000000000000000000000000001,  --123 ISZ [GPR_M]
    0b00100000000000000000000000000000,  --124 ISZ [INCPCZ]
    0b01000000000000000000000000000000,  --125 ISZ [CLRSC]
    0, 0,
    0b10000000000000000000000000000000,  --128 HLT [HLT]
    0b01000000000000000000000000000000,  --129 HLT [CLRSC]
    0, 0, 0, 0, 0, 0 ]

/-! ## Decode phase (`Control::RisingEdge`)

`Control` is the last component of `mComponents` and the only one whose
`RisingEdge` is non-trivial, so the rising-edge sweep of a tick is exactly
this function.  `mOpcode = (BYTE)(mRegOpr->Get())` with `mRegOpr` masked to
`0x000f`; `mHltBit` is `0b1000'0000` exactly for opcode 0. -/

def decodeIndex (opcode sc : Nat) : Nat :=
  (opcode <<< 3) ||| (if opcode == 0 then 0b10000000 else 0) ||| (sc - 3)

/-- The control word after table lookup and the two conditional-skip
modifications, before the `CLRSC` / `HLT` checks. -/
def rawControlWord (s : State) : Nat :=
  let fF : Nat := if s.flg &&& 0x01 ≠ 0 then 1 else 0
  let fZ : Nat := if s.flg &&& 0x02 ≠ 0 then 1 else 0
  let w := if s.sreg > 2 then mMicrocode.getD (decodeIndex s.opr s.sreg) 0
           else mMicrocode.getD s.sreg 0
  let w := if w &&& INCPCF ≠ 0 ∧ fF = 0 then w ||| INCPC else w
  if w &&& INCPCZ ≠ 0 ∧ fZ ≠ 0 then w ||| INCPC else w

def decodePhase (s : State) : State :=
  let w := rawControlWord s
  -- CLRSC: `mRegSteps->Reset(); mControlBus = mMicrocode[0];`
  let s1 := if w &&& CLRSC ≠ 0 then { s with sreg := 0, ctrl := mMicrocode.getD 0 0 }
            else { s with ctrl := w }
  -- HLT: `exit(0)`, tested on the (possibly replaced) control bus
  if s1.ctrl &&& HLT ≠ 0 then { s1 with halted := true } else s1

/-! ## Drive phase (`HighLevel`)

`Register::HighLevel` drives `mStore` onto the bus when
`mControlBus & mOutMask` is non-zero; the out-masks are the ones passed in
`Computer::Computer` (pc: `PC_MAR|PC_GPR`; acc: `A_GPR`;
gpr: `GPR_M|GPR_MAR|GPR_OP|GPR_PC`; the others 0).  `Adder::HighLevel`
buffers `(acc + gpr) & 0x0fff` (its bus drive is commented out in the
source).  `Memory::HighLevel` drives `mStore[mMAR->Get()]` on `M_GPR`.
Components run in `mComponents` order, later drivers overwriting earlier
ones. -/

def highPhase (s : State) : State :=
  let bus := s.bus
  let bus := if s.ctrl &&& (PC_MAR ||| PC_GPR) ≠ 0 then s.pc else bus
  let bus := if s.ctrl &&& A_GPR ≠ 0 then s.acc else bus
  let bus := if s.ctrl &&& (GPR_M ||| GPR_MAR ||| GPR_OP ||| GPR_PC) ≠ 0 then s.gpr else bus
  let asum := (s.acc + s.gpr) &&& 0x0fff
  let bus := if s.ctrl &&& M_GPR ≠ 0 then s.mem.getD s.mar 0 else bus
  { s with bus := bus, asum := asum }

/-! ## Compute phase (`FallingEdge`) -/

/-- `Adder::RolAcc`, acting on the saved flags (`mNextFlag` after the zero
recomputation, `mFlagF` the F bit sampled at the start of `FallingEdge`).
Returns the new accumulator and flag-register contents (`Register::Set`
masks with `0x0fff` resp. `0x0003`). -/
def RolAcc (acc nextFlag flagF : Nat) : Nat × Nat :=
  let nf := if acc &&& 0x0800 ≠ 0 then nextFlag ||| 0x0001 else nextFlag &&& 0x0002
  ((((acc <<< 1) &&& 0x0fff) ||| flagF) &&& 0x0fff, nf &&& 0x0003)

/-- `Adder::RorAcc`. -/
def RorAcc (acc nextFlag flagF : Nat) : Nat × Nat :=
  let nf := if acc &&& 0x0001 ≠ 0 then nextFlag ||| 0x0001 else nextFlag &&& 0x0002
  let a := (acc >>> 1) &&& 0x0fff
  let a := if flagF ≠ 0 then a ||| 0x0800 else a ||| 0x0000
  (a &&& 0x0fff, nf &&& 0x0003)

/-- The mask `Adder`'s `mInMask` is constructed with:
`ADD | ROL | ROR | COMA | COMF | CLRA | CLRF`.  Note it does not contain
`A_GPR`, so the `A_GPR` branch inside `Adder::FallingEdge` can never fire. -/
def aluInMask : Nat := ADD ||| ROL ||| ROR ||| COMA ||| COMF ||| CLRA ||| CLRF

def fallingPhase (s : State) : State :=
  -- Register::FallingEdge, component order sReg, pcReg, accReg, gprReg.
  -- sReg has mIncrMask == 0xffff, so its condition is always true.
  let sreg := (s.sreg + 1) &&& 0x000f
  let pc := if s.ctrl &&& INCPC ≠ 0 then (s.pc + 1) &&& 0x00ff else s.pc
  let acc := if s.ctrl &&& INCA ≠ 0 then (s.acc + 1) &&& 0x0fff else s.acc
  let gpr := if s.ctrl &&& INCGPR ≠ 0 then (s.gpr + 1) &&& 0x0fff else s.gpr
  -- GprBus::FallingEdge (inmask PC_GPR | GPR_OP); swap masks via
  -- Register::Set (pc bitmask 0x00ff, gpr 0x0fff, opr 0x000f).
  -- (the enclosing source test `mControlBus & mInMask` is implied by either
  -- equality below, so it is not repeated here)
  let gcnd := s.ctrl &&& (PC_GPR ||| GPR_OP)
  let pc' := if gcnd = PC_GPR then (gpr &&& 0x00ff) &&& 0x00ff else pc
  let gpr' := if gcnd = PC_GPR then (pc &&& 0x00ff) &&& 0x0fff else gpr
  let opr := if gcnd = GPR_OP then (gpr >>> 8) &&& 0x000f else s.opr
  -- Adder::FallingEdge: sample flags, recompute Z from gpr, then the
  -- conditional micro-operations.  Each one tests `(ctrl & mInMask) == OP`;
  -- the enclosing source test `mControlBus & mInMask` is implied by any of
  -- those equalities, so it is not repeated here.
  let nextFlag := s.flg
  let flagF := if nextFlag &&& 0x0001 ≠ 0 then 1 else 0
  let nextFlag := if gpr' ≠ 0 then nextFlag &&& 0x0001 else nextFlag ||| 0x0002
  let flg := nextFlag &&& 0x0003
  let cnd := s.ctrl &&& aluInMask
  let gpr' := if cnd = A_GPR then (s.acc &&& 0x0fff) &&& 0x0fff else gpr'  -- dead: A_GPR ∉ aluInMask
  let acc := if cnd = ADD then s.asum &&& 0x0fff else acc
  let acc := if cnd = COMA then ((acc ^^^ 0xffff) &&& 0x0fff) &&& 0x0fff else acc
  let flg := if cnd = COMF then ((flg ^^^ 0x0001) &&& 0x0003) &&& 0x0003 else flg
  let acc := if cnd = CLRA then 0 else acc
  let flg := if cnd = CLRF then (flg &&& 0x0002) &&& 0x0003 else flg
  let accL := if cnd = ROL then (RolAcc acc nextFlag flagF).1 else acc
  let flgL := if cnd = ROL then (RolAcc acc nextFlag flagF).2 else flg
  let acc' := if cnd = ROR then (RorAcc accL nextFlag flagF).1 else accL
  let flg' := if cnd = ROR then (RorAcc accL nextFlag flagF).2 else flgL
  { s with sreg := sreg, pc := pc', acc := acc', gpr := gpr', opr := opr, flg := flg' }

/-! ## Latch phase (`LowLevel`)

In-masks from `Computer::Computer`: pc latches on `GPR_PC`, gpr on
`PC_GPR|A_GPR|M_GPR`, mar on `PC_MAR|GPR_MAR`; `Memory::LowLevel` stores the
bus at `mStore[mMAR->Get()]` on `GPR_M` (after marReg's latch, per component
order). -/

def lowPhase (s : State) : State :=
  let pc := if s.ctrl &&& GPR_PC ≠ 0 then s.bus &&& 0x00ff else s.pc
  let gpr := if s.ctrl &&& (PC_GPR ||| A_GPR ||| M_GPR) ≠ 0 then s.bus &&& 0x0fff else s.gpr
  let mar := if s.ctrl &&& (PC_MAR ||| GPR_MAR) ≠ 0 then s.bus &&& 0x00ff else s.mar
  let mem := if s.ctrl &&& GPR_M ≠ 0 then s.mem.set mar s.bus else s.mem
  { s with pc := pc, gpr := gpr, mar := mar, mem := mem }

/-- The three phases that follow a successful (non-halting) decode. -/
def phases (s : State) : State := lowPhase (fallingPhase (highPhase s))

/-- One full four-phase tick (`Computer::Update`'s inner loop body).  The
`exit(0)` inside `Control::RisingEdge` aborts the remaining phases; a
halted machine does nothing further. -/
def tick (s : State) : State :=
  if s.halted then s
  else
    let s1 := decodePhase s
    if s1.halted then s1 else phases s1

/-- The state after `Computer::Reset`: every register cleared, the memory
image as loaded by the constructor, buses as constructed (their initial
contents are never read before being written). -/
def state0 : State :=
  { bus := 0, ctrl := 0, sreg := 0, pc := 0, acc := 0, gpr := 0, flg := 0,
    opr := 0, mar := 0, asum := 0, mem := mem0, halted := false }

/-- The machine state after `n` ticks from reset. -/
def run (n : Nat) : State := tick^[n] state0

/-! ## The generic `Register` component

A direct rendering of `class Register`, for the claims about the register
model itself.  `HighLevel` returns the (possibly re-driven) data bus;
the other operations return the updated register. -/

structure Register where
  mStore : Nat
  mInMask : Nat
  mOutMask : Nat
  mIncrMask : Nat
  mBitMask : Nat
  deriving Repr, DecidableEq

def Register.Get (r : Register) : Nat := r.mStore

def Register.HighLevel (r : Register) (dataBus ctrl : Nat) : Nat :=
  if ctrl &&& r.mOutMask ≠ 0 then r.mStore else dataBus

def Register.Increment (r : Register) : Register :=
  { r with mStore := (r.mStore + 1) &&& r.mBitMask }

def Register.FallingEdge (r : Register) (ctrl : Nat) : Register :=
  if ctrl &&& r.mIncrMask ≠ 0 ∨ r.mIncrMask = 0xffff then r.Increment else r

def Register.LowLevel (r : Register) (dataBus ctrl : Nat) : Register :=
  if ctrl &&& r.mInMask ≠ 0 then { r with mStore := dataBus &&& r.mBitMask } else r

def Register.Reset (r : Register) : Register := { r with mStore := 0 }

def Register.Set (r : Register) (data : Nat) : Register :=
  { r with mStore := data &&& r.mBitMask }

/-- The width invariant: the stored value is unchanged by masking with the
register's bit mask. -/
def Register.widthInv (r : Register) : Prop := r.mStore &&& r.mBitMask = r.mStore

/-! ## Generic bit-arithmetic helpers -/

theorem and_mask_idem (x m : Nat) : (x &&& m) &&& m = x &&& m := by
  rw [Nat.and_assoc, Nat.and_self]

/-- If `c` is not contained in the mask `m`, then no masked value equals `c`.
Used to discharge the dead `A_GPR` branch of `Adder::FallingEdge`. -/
theorem masked_ne (x m c : Nat) (h : c &&& m ≠ c) : x &&& m ≠ c := by
  intro he
  exact h (by rw [← he, and_mask_idem])

theorem or_eq_zero_iff' {a b : Nat} : a ||| b = 0 ↔ a = 0 ∧ b = 0 := by
  constructor
  · intro h
    refine ⟨?_, ?_⟩ <;> by_contra hne
    · obtain ⟨i, hi⟩ := Nat.ne_zero_implies_bit_true hne
      have hb : (a ||| b).testBit i = true := by simp [Nat.testBit_or, hi]
      rw [h] at hb
      simp at hb
    · obtain ⟨i, hi⟩ := Nat.ne_zero_implies_bit_true hne
      have hb : (a ||| b).testBit i = true := by simp [Nat.testBit_or, hi]
      rw [h] at hb
      simp at hb
  · rintro ⟨rfl, rfl⟩
    simp

theorem lor_eq_add : ∀ a b : Nat, a &&& b = 0 → a ||| b = a + b := by
  intro a
  induction a using Nat.strong_induction_on with
  | _ a ih =>
    intro b h
    rcases Nat.eq_zero_or_pos a with ha | ha
    · subst ha
      simp
    · have hdiv : a / 2 ||| b / 2 = a / 2 + b / 2 := by
        apply ih (a / 2) (Nat.div_lt_self ha (by norm_num))
        rw [← Nat.and_div_two, h]
      have hmod : ¬(a % 2 = 1 ∧ b % 2 = 1) := by
        intro hc
        have h2 := Nat.and_mod_two_eq_one.mpr hc
        rw [h] at h2
        simp at h2
      have e1 : 2 * ((a ||| b) / 2) + (a ||| b) % 2 = a ||| b := Nat.div_add_mod _ 2
      rw [Nat.or_div_two, hdiv] at e1
      have e2 : (a ||| b) % 2 = 1 ∨ (a ||| b) % 2 = 0 := by omega
      rcases e2 with e2 | e2
      · have := Nat.or_mod_two_eq_one.mp e2
        omega
      · have : ¬(a % 2 = 1 ∨ b % 2 = 1) := fun hc => by
          have := Nat.or_mod_two_eq_one.mpr hc
          omega
        omega

theorem and_two_pow_eq_zero {x : Nat} (i : Nat) (h : x < 2 ^ i) : x &&& 2 ^ i = 0 := by
  have hb : x.testBit i = false := Nat.testBit_lt_two_pow h
  apply Nat.eq_of_testBit_eq
  intro j
  rcases eq_or_ne j i with rfl | hne
  · simp [Nat.testBit_and, hb]
  · simp [Nat.testBit_and, Nat.testBit_two_pow_of_ne (Ne.symm hne)]

theorem or_one_of_even {x : Nat} (h : x % 2 = 0) : x ||| 1 = x + 1 := by
  apply lor_eq_add
  rw [Nat.and_one_is_mod, h]

/-- Rewrites of the source's literal masks and shifts into `%`, `*`, `/`. -/
theorem and_4095 (x : Nat) : x &&& 0x0fff = x % 4096 := by
  have h : (0x0fff : Nat) = 2 ^ 12 - 1 := by norm_num
  rw [h, Nat.and_pow_two_sub_one_eq_mod]

theorem and_255 (x : Nat) : x &&& 0x00ff = x % 256 := by
  have h : (0x00ff : Nat) = 2 ^ 8 - 1 := by norm_num
  rw [h, Nat.and_pow_two_sub_one_eq_mod]

theorem and_15 (x : Nat) : x &&& 0x000f = x % 16 := by
  have h : (0x000f : Nat) = 2 ^ 4 - 1 := by norm_num
  rw [h, Nat.and_pow_two_sub_one_eq_mod]

theorem and_3 (x : Nat) : x &&& 0x0003 = x % 4 := by
  have h : (0x0003 : Nat) = 2 ^ 2 - 1 := by norm_num
  rw [h, Nat.and_pow_two_sub_one_eq_mod]

theorem and_1 (x : Nat) : x &&& 0x0001 = x % 2 := Nat.and_one_is_mod x

theorem shiftl1 (x : Nat) : x <<< 1 = 2 * x := by
  rw [Nat.shiftLeft_eq, Nat.pow_one, Nat.mul_comm]

theorem shiftl3 (x : Nat) : x <<< 3 = 8 * x := by
  have h8 : (2 : Nat) ^ 3 = 8 := by norm_num
  rw [Nat.shiftLeft_eq, h8, Nat.mul_comm]

theorem shiftr1 (x : Nat) : x >>> 1 = x / 2 := by
  rw [Nat.shiftRight_eq_div_pow]

theorem shiftr8 (x : Nat) : x >>> 8 = x / 256 := by
  rw [Nat.shiftRight_eq_div_pow]

theorem or_2048_of_lt {x : Nat} (h : x < 2048) : x ||| 2048 = x + 2048 := by
  apply lor_eq_add
  have h11 : (2048 : Nat) = 2 ^ 11 := by norm_num
  rw [h11]
  exact and_two_pow_eq_zero 11 (by omega)

theorem and_2048_iff {a : Nat} (ha : a < 4096) : a &&& 2048 ≠ 0 ↔ 2048 ≤ a := by
  have h11 : (2048 : Nat) = 2 ^ 11 := by norm_num
  rcases Nat.lt_or_ge a 2048 with h | h
  · have : a &&& 2048 = 0 := by
      rw [h11]
      exact and_two_pow_eq_zero 11 (by omega)
    simp [this]
    omega
  · have hb : a.testBit 11 = true := by
      rw [Nat.testBit_to_div_mod]
      have hd : a / 2 ^ 11 = 1 := by
        have h2 : (2 : Nat) ^ 11 = 2048 := by norm_num
        rw [h2]
        omega
      rw [hd]
      rfl
    have : a &&& 2048 = 2048 := by
      apply Nat.eq_of_testBit_eq
      intro j
      rcases eq_or_ne j 11 with rfl | hne
      · simp [Nat.testBit_and, hb, h11, Nat.testBit_two_pow_self]
      · simp [Nat.testBit_and, h11, Nat.testBit_two_pow_of_ne (Ne.symm hne)]
    simp [this]
    omega

/-! ## Small flag-bit identities (for the 2-bit flag register) -/

theorem and_or_self (x m : Nat) : (x &&& m) ||| m = m := by
  apply Nat.eq_of_testBit_eq
  intro i
  simp only [Nat.testBit_or, Nat.testBit_and]
  cases x.testBit i <;> cases m.testBit i <;> rfl

theorem nf_and2_ne (f : Nat) : (f &&& 1) &&& 2 = 0 := by
  rw [Nat.and_assoc, (by decide : (1:Nat) &&& 2 = 0), Nat.and_zero]

theorem nf_and2_eq (f : Nat) : (f ||| 2) &&& 2 = 2 := by
  rw [Nat.and_distrib_right, (by decide : (2:Nat) &&& 2 = 2), and_or_self]

theorem and3_and2 (x : Nat) : (x &&& 3) &&& 2 = x &&& 2 := by
  rw [Nat.and_assoc, (by decide : (3:Nat) &&& 2 = 2)]

theorem and3_and1 (x : Nat) : (x &&& 3) &&& 1 = x &&& 1 := by
  rw [Nat.and_assoc, (by decide : (3:Nat) &&& 1 = 1)]

theorem or1_and2 (x : Nat) : (x ||| 1) &&& 2 = x &&& 2 := by
  rw [Nat.and_distrib_right, (by decide : (1:Nat) &&& 2 = 0), Nat.or_zero]

theorem or2_and1 (x : Nat) : (x ||| 2) &&& 1 = x &&& 1 := by
  rw [Nat.and_distrib_right, (by decide : (2:Nat) &&& 1 = 0), Nat.or_zero]

theorem or1_and1 (x : Nat) : (x ||| 1) &&& 1 = 1 := by
  rw [Nat.and_distrib_right, (by decide : (1:Nat) &&& 1 = 1), and_or_self]

theorem and2_and1 (x : Nat) : (x &&& 2) &&& 1 = 0 := by
  rw [Nat.and_assoc, (by decide : (2:Nat) &&& 1 = 0), Nat.and_zero]

theorem and2_and2 (x : Nat) : (x &&& 2) &&& 2 = x &&& 2 := by
  rw [Nat.and_assoc, Nat.and_self]

theorem and1_and1 (x : Nat) : (x &&& 1) &&& 1 = x &&& 1 := by
  rw [Nat.and_assoc, Nat.and_self]

theorem xor1_and2 (x : Nat) : (x ^^^ 1) &&& 2 = x &&& 2 := by
  rw [Nat.and_xor_distrib_right, (by decide : (1:Nat) &&& 2 = 0), Nat.xor_zero]

/-- The `Adder::FallingEdge` zero recomputation: bit 1 of the written flag
value is set exactly when the gpr value it sampled is zero. -/
theorem zrec_iff (g f : Nat) :
    (if g ≠ 0 then f &&& 1 else f ||| 2) &&& 2 = 2 ↔ g = 0 := by
  by_cases hg : g = 0
  · rw [if_neg (by simpa using hg), nf_and2_eq]
    simp [hg]
  · rw [if_pos hg, nf_and2_ne]
    simp [hg]

theorem base_z (g f : Nat) :
    ((if g ≠ 0 then f &&& 1 else f ||| 2) &&& 3) &&& 2 = 2 ↔ g = 0 := by
  rw [and3_and2]
  exact zrec_iff g f

theorem clrf_z (g f : Nat) :
    ((((if g ≠ 0 then f &&& 1 else f ||| 2) &&& 3) &&& 2) &&& 3) &&& 2 = 2 ↔ g = 0 := by
  rw [and3_and2, and2_and2, and3_and2]
  exact zrec_iff g f

theorem comf_z (g f : Nat) :
    (((((if g ≠ 0 then f &&& 1 else f ||| 2) &&& 3) ^^^ 1) &&& 3) &&& 3) &&& 2 = 2 ↔
      g = 0 := by
  rw [and3_and2, and3_and2, xor1_and2, and3_and2]
  exact zrec_iff g f

theorem rot_z (P : Prop) [Decidable P] (g f : Nat) :
    ((if P then (if g ≠ 0 then f &&& 1 else f ||| 2) ||| 1
      else (if g ≠ 0 then f &&& 1 else f ||| 2) &&& 2) &&& 3) &&& 2 = 2 ↔ g = 0 := by
  by_cases hP : P
  · rw [if_pos hP, and3_and2, or1_and2]
    exact zrec_iff g f
  · rw [if_neg hP, and3_and2, and2_and2]
    exact zrec_iff g f

theorem base_f (g f : Nat) :
    ((if g ≠ 0 then f &&& 1 else f ||| 2) &&& 3) &&& 1 = f &&& 1 := by
  rw [and3_and1]
  by_cases hg : g = 0
  · rw [if_neg (by simpa using hg), or2_and1]
  · rw [if_pos hg, and1_and1]

theorem and_two_pow_cases (x i : Nat) : x &&& 2 ^ i = 0 ∨ x &&& 2 ^ i = 2 ^ i := by
  cases hb : x.testBit i
  · left
    apply Nat.eq_of_testBit_eq
    intro j
    rcases eq_or_ne j i with rfl | hne
    · simp [Nat.testBit_and, hb]
    · simp [Nat.testBit_and, Nat.testBit_two_pow_of_ne (Ne.symm hne)]
  · right
    apply Nat.eq_of_testBit_eq
    intro j
    rcases eq_or_ne j i with rfl | hne
    · simp [Nat.testBit_and, hb, Nat.testBit_two_pow_self]
    · simp [Nat.testBit_and, Nat.testBit_two_pow_of_ne (Ne.symm hne)]

theorem and_or_split {x a b : Nat} (h : x &&& (a ||| b) = 0) :
    x &&& a = 0 ∧ x &&& b = 0 := by
  rw [Nat.and_or_distrib_left] at h
  exact or_eq_zero_iff'.mp h

theorem or_ne_zero_left {a b : Nat} (h : a ≠ 0) : a ||| b ≠ 0 :=
  fun hc => h (or_eq_zero_iff'.mp hc).1

theorem or_ne_zero_right {a b : Nat} (h : b ≠ 0) : a ||| b ≠ 0 :=
  fun hc => h (or_eq_zero_iff'.mp hc).2

/-! ## Run machinery: a halted state is frozen; trace-wide checks -/

theorem tick_halted {s : State} (h : s.halted = true) : tick s = s := by
  simp [tick, h]

theorem iterate_tick_halted {s : State} (h : s.halted = true) :
    ∀ k, tick^[k] s = s := by
  intro k
  induction k with
  | zero => rfl
  | succ k ih => rw [Function.iterate_succ_apply, tick_halted h, ih]

/-- Check a boolean state predicate on every state of the first `n` ticks. -/
def allStatesOk (p : State → Bool) : Nat → State → Bool
  | 0, s => p s
  | n + 1, s => p s && allStatesOk p n (tick s)

theorem allStatesOk_spec (p : State → Bool) :
    ∀ (n : Nat) (s : State), allStatesOk p n s = true →
      ∀ k, k ≤ n → p (tick^[k] s) = true := by
  intro n
  induction n with
  | zero =>
    intro s h k hk
    have hk0 : k = 0 := Nat.le_zero.mp hk
    subst hk0
    exact h
  | succ n ih =>
    intro s h k hk
    rw [allStatesOk] at h
    have hsplit : p s = true ∧ allStatesOk p n (tick s) = true := by simpa using h
    obtain ⟨h1, h2⟩ := hsplit
    cases k with
    | zero => exact h1
    | succ k =>
      rw [Function.iterate_succ_apply]
      exact ih (tick s) h2 k (Nat.le_of_succ_le_succ hk)

theorem run178_halted : (run 178).halted = true := by decide

theorem run_prop_of_allStatesOk {p : State → Bool}
    (h : allStatesOk p 178 state0 = true) : ∀ n, p (run n) = true := by
  intro n
  rcases le_or_lt n 178 with hn | hn
  · exact allStatesOk_spec p 178 state0 h n hn
  · have he : n = (n - 178) + 178 := by omega
    have : run n = run 178 := by
      rw [run, he, Function.iterate_add_apply]
      exact iterate_tick_halted run178_halted (n - 178)
    rw [this]
    exact allStatesOk_spec p 178 state0 h 178 (Nat.le_refl 178)

/-! ## Trace of the counter cell (address 9) -/

def memAt9Trace : Nat → State → List Nat
  | 0, s => [s.mem.getD 9 0]
  | n + 1, s => s.mem.getD 9 0 :: memAt9Trace n (tick s)

/-- Collapse runs of equal consecutive elements to a single element. -/
def squashReps : List Nat → List Nat
  | [] => []
  | [a] => [a]
  | a :: b :: t => if a = b then squashReps (b :: t) else a :: squashReps (b :: t)

/-! ## Boolean state invariants checked over the whole run -/

def marOk (s : State) : Bool := decide (s.mar < 128) && decide (s.mem.length = 128)

theorem marOk_eval : allStatesOk marOk 178 state0 = true := by decide

def stepOk (s : State) : Bool := decide (s.opr < 16) && decide (s.sreg ≤ 8)

theorem stepOk_eval : allStatesOk stepOk 178 state0 = true := by decide

/-- Decoding a state whose (skip-adjusted) raw control word asserts CLRSC
resets the step register and emits the fetch block's first entry; the halt
test then sees that entry (which has no halt bit), so the halt flag is
unchanged. -/
theorem decode_clrsc {s : State} (hc : rawControlWord s &&& CLRSC ≠ 0) :
    decodePhase s = { s with sreg := 0, ctrl := mMicrocode.getD 0 0 } := by
  have hh : mMicrocode.getD 0 0 &&& HLT = 0 := by decide
  simp only [decodePhase, if_pos hc]
  simp [hh]
  intro hx
  exact absurd (by decide) hx

/-! ## Claim theorems -/

/-- Claim C1: From reset, with the default memory image and the built-in microcode
table, the machine halts: tick 178 decodes the halt opcode (the operation
register holds 0, the halt code) and sets the terminal flag, after which the
state never changes again.  At termination the RES cell (address 7) holds
36 = 1+3+5+7+9+11 and the CTR cell (address 9) holds 0; along the run the
CTR cell took exactly the successive values 0xFFA (−6 in 12-bit two's
complement), 0xFFB, …, 0xFFF, 0 — six increments, one per loop iteration. -/
theorem default_program_terminates_with_sum36 :
    (run 177).halted = false ∧ (run 177).opr = 0 ∧
    (decodePhase (run 177)).halted = true ∧
    (run 178).halted = true ∧ (∀ k, run (178 + k) = run 178) ∧
    (run 178).mem.getD 7 0 = 36 ∧ (run 178).mem.getD 9 0 = 0 ∧
    squashReps (memAt9Trace 178 state0) =
      [0xFFA, 0xFFB, 0xFFC, 0xFFD, 0xFFE, 0xFFF, 0] := by
  refine ⟨by decide, by decide, by decide, run178_halted, ?_, by decide, by decide,
    by decide⟩
  intro k
  have he : 178 + k = k + 178 := Nat.add_comm _ _
  rw [run, run, he, Function.iterate_add_apply]
  exact iterate_tick_halted run178_halted k

/-- Claim C3: On an execute-phase decode the microcode index is
`(opcode <<< 3) ||| haltRedirect ||| (step − 3)`; for every opcode below 16
and every step value reachable in execute (3 ≤ step ≤ 8, established for
the whole run in the second conjunct) the bitwise OR agrees with the sum
`opcode*8 + haltRedirect + (step−3)`, the index stays at most 135, and for
the halt opcode (0) it lands in the reserved tail block from 128 on. -/
theorem decode_index_or_matches_add :
    (∀ op, op < 16 → ∀ sc, sc < 9 → 2 < sc →
      decodeIndex op sc = op * 8 + (if op = 0 then 128 else 0) + (sc - 3) ∧
      decodeIndex op sc ≤ 135 ∧ (op = 0 → 128 ≤ decodeIndex op sc)) ∧
    (∀ n, (run n).opr < 16 ∧ (run n).sreg ≤ 8) := by
  constructor
  · decide
  · intro n
    have h := run_prop_of_allStatesOk stepOk_eval n
    simp only [stepOk, Bool.and_eq_true, decide_eq_true_eq] at h
    exact h

/-- Witness for C3 at concrete inputs: opcode 15 at step 8 (the largest
reachable pair) and the halt opcode at step 3. -/
theorem decode_index_or_matches_add_witness :
    (15 : Nat) < 16 ∧ (8 : Nat) < 9 ∧ (2 : Nat) < 8 ∧
    decodeIndex 15 8 = 15 * 8 + 0 + 5 ∧ decodeIndex 15 8 ≤ 135 ∧
    (0 : Nat) < 16 ∧ 128 ≤ decodeIndex 0 3 := by
  have h1 := decode_index_or_matches_add.1 15 (by decide) 8 (by decide) (by decide)
  have h2 := decode_index_or_matches_add.1 0 (by decide) 3 (by decide) (by decide)
  refine ⟨by decide, by decide, by decide, ?_, h1.2.1, by decide, h2.2.2 rfl⟩
  have := h1.1
  simpa using this

/-- Claim C6, counterexample: tick 5 decodes a control word asserting the
clear-step-counter bit (the CRA execute block's second word), yet one tick
after the assertion the step counter holds 1, not 0. -/
theorem clrsc_step_not_zero_next_tick :
    rawControlWord (run 4) &&& CLRSC ≠ 0 ∧ (run 5).sreg ≠ 0 ∧ (run 5).sreg = 1 := by
  exact ⟨by decide, by decide, by decide⟩

/-- Claim C6, amended: in every reachable state the step counter is at most 8,
so during execute (step > 2) the offset step−3 lies in [0, 7]; when the
decoded control word asserts clear-step-counter, the counter is reset to 0
immediately and that tick's emitted control word is replaced by the fetch
block's first entry, and the decode does not halt — but at the end of the
asserting tick the counter reads 1 (not 0), because the step register's
unconditional increment runs in the same tick's compute phase. -/
theorem step_counter_clrsc_behavior :
    (∀ n, (run n).sreg ≤ 8 ∧ (2 < (run n).sreg → (run n).sreg - 3 ≤ 7)) ∧
    (∀ s : State, rawControlWord s &&& CLRSC ≠ 0 →
      (decodePhase s).sreg = 0 ∧ (decodePhase s).ctrl = mMicrocode.getD 0 0 ∧
      (decodePhase s).halted = s.halted ∧
      (s.halted = false → (tick s).sreg = 1)) := by
  constructor
  · intro n
    have h := run_prop_of_allStatesOk stepOk_eval n
    simp only [stepOk, Bool.and_eq_true, decide_eq_true_eq] at h
    exact ⟨h.2, fun _ => by omega⟩
  · intro s hc
    have hdec := decode_clrsc hc
    refine ⟨by rw [hdec], by rw [hdec], by rw [hdec], ?_⟩
    intro hh
    have h1 : (decodePhase s).halted = false := by rw [hdec]; exact hh
    have ht : tick s = phases (decodePhase s) := by
      simp [tick, hh, h1]
    rw [ht, hdec]
    simp [phases, lowPhase, fallingPhase, highPhase]

/-- Witness for C6's amended theorem at the run's first clear-step-counter
tick (tick 5). -/
theorem step_counter_clrsc_behavior_witness :
    rawControlWord (run 4) &&& CLRSC ≠ 0 ∧ (run 4).halted = false ∧
    (decodePhase (run 4)).sreg = 0 ∧ (tick (run 4)).sreg = 1 := by
  have h := step_counter_clrsc_behavior.2 (run 4) (by decide)
  exact ⟨by decide, rfl, h.1, h.2.2.2 rfl⟩

/-- Claim C7: in every reachable state the memory address register is below 128,
and the memory array keeps length 128; hence the read
`mStore[mMAR->Get()]` in `Memory::HighLevel` and the write in
`Memory::LowLevel` are always within the bounds of the 128-word array. -/
theorem memory_access_in_bounds :
    ∀ n, (run n).mar < 128 ∧ (run n).mem.length = 128 := by
  intro n
  have h := run_prop_of_allStatesOk marOk_eval n
  simp only [marOk, Bool.and_eq_true, decide_eq_true_eq] at h
  exact h

/-- Claim C2: on a tick whose control word asserts the accumulator-to-gpr copy
condition `A_GPR` and no other bus-driving condition, the general-purpose
register ends the tick holding the accumulator's value masked to 12 bits,
and the data bus holds the accumulator value driven this same tick (so the
gpr latch — whose trigger mask does include `A_GPR` — captures the fresh
value, not a stale one).  In the source the copy travels over the bus:
accReg drives on `A_GPR` and gprReg latches on `A_GPR`, while the `A_GPR`
branch inside `Adder::FallingEdge` is unreachable since `A_GPR` is not in
the adder's in-mask. -/
theorem a_gpr_tick_loads_acc_into_gpr (s : State)
    (hacc : s.ctrl &&& A_GPR ≠ 0)
    (hpc : s.ctrl &&& (PC_MAR ||| PC_GPR) = 0)
    (hgpr : s.ctrl &&& (GPR_M ||| GPR_MAR ||| GPR_OP ||| GPR_PC) = 0)
    (hmem : s.ctrl &&& M_GPR = 0) :
    (phases s).gpr = s.acc &&& 0x0fff ∧ (phases s).bus = s.acc := by
  have hPCG : s.ctrl &&& PC_GPR = 0 := (and_or_split hpc).2
  have hlatch : s.ctrl &&& (PC_GPR ||| A_GPR ||| M_GPR) ≠ 0 := by
    rw [Nat.and_or_distrib_left, Nat.and_or_distrib_left, hPCG, hmem, Nat.zero_or,
      Nat.or_zero]
    exact hacc
  simp only [phases, lowPhase, fallingPhase, highPhase]
  simp [hacc, hpc, hgpr, hmem, hlatch]

def sampleA : State :=
  { bus := 0, ctrl := A_GPR, sreg := 0, pc := 0, acc := 0xABC, gpr := 5, flg := 0,
    opr := 0, mar := 0, asum := 0, mem := [], halted := false }

/-- Witness for C2 at a concrete state whose control word is exactly
`A_GPR`. -/
theorem a_gpr_tick_loads_acc_into_gpr_witness :
    sampleA.ctrl &&& A_GPR ≠ 0 ∧ sampleA.ctrl &&& (PC_MAR ||| PC_GPR) = 0 ∧
    sampleA.ctrl &&& (GPR_M ||| GPR_MAR ||| GPR_OP ||| GPR_PC) = 0 ∧
    sampleA.ctrl &&& M_GPR = 0 ∧ (phases sampleA).gpr = 0xABC &&& 0x0fff := by
  refine ⟨by decide, by decide, by decide, by decide, ?_⟩
  exact (a_gpr_tick_loads_acc_into_gpr sampleA (by decide) (by decide) (by decide)
    (by decide)).1

/-- Claim C8: on a tick whose control word asserts the pc/gpr swap condition
`PC_GPR` (and none of the other bus-driving or increment conditions), the
low 8 bits of the program counter and of the general-purpose register are
exchanged by the end of the tick: the pc holds the old gpr's low byte, and
the gpr holds the old pc (whose width invariant keeps it below 256).  In
the source the swap itself is the direct register-to-register move in
`GprBus::FallingEdge`; the gpr is additionally re-latched from the bus,
which carries the same old pc value driven this tick. -/
theorem pc_gpr_swap_exchanges_low_bytes (s : State)
    (hswap : s.ctrl &&& (PC_GPR ||| GPR_OP) = PC_GPR)
    (hA : s.ctrl &&& A_GPR = 0)
    (hg : s.ctrl &&& (GPR_M ||| GPR_MAR ||| GPR_OP ||| GPR_PC) = 0)
    (hM : s.ctrl &&& M_GPR = 0)
    (hincg : s.ctrl &&& INCGPR = 0)
    (hpcw : s.pc < 256) :
    (phases s).pc = s.gpr &&& 0x00ff ∧ (phases s).gpr = s.pc ∧
    (phases s).gpr &&& 0x00ff = s.pc := by
  have e1 : PC_GPR = 2 ^ 8 := by decide
  have h8 : s.ctrl &&& PC_GPR = PC_GPR := by
    have hd : (s.ctrl &&& PC_GPR) ||| (s.ctrl &&& GPR_OP) = PC_GPR := by
      rw [← Nat.and_or_distrib_left]
      exact hswap
    have cA : s.ctrl &&& PC_GPR = 0 ∨ s.ctrl &&& PC_GPR = PC_GPR := by
      rw [e1]
      exact and_two_pow_cases s.ctrl 8
    rcases cA with hA0 | hA1
    · exfalso
      have cB : s.ctrl &&& GPR_OP = 0 ∨ s.ctrl &&& GPR_OP = GPR_OP := by
        have e2 : GPR_OP = 2 ^ 5 := by decide
        rw [e2]
        exact and_two_pow_cases s.ctrl 5
      rcases cB with hB0 | hB1
      · rw [hA0, hB0] at hd
        exact absurd hd (by decide)
      · rw [hA0, hB1] at hd
        exact absurd hd (by decide)
    · exact hA1
  have hdrv : s.ctrl &&& (PC_MAR ||| PC_GPR) ≠ 0 := by
    rw [Nat.and_or_distrib_left, h8]
    exact or_ne_zero_right (by decide)
  have hGPC : s.ctrl &&& GPR_PC = 0 := (and_or_split hg).2
  have hlatch : s.ctrl &&& (PC_GPR ||| A_GPR ||| M_GPR) ≠ 0 := by
    rw [Nat.and_or_distrib_left, Nat.and_or_distrib_left, h8, hA, hM]
    decide
  have hpcfix : s.pc &&& 0x0fff = s.pc := by
    rw [and_4095]
    omega
  have hpcfix2 : s.pc &&& 0x00ff = s.pc := by
    rw [and_255]
    omega
  simp only [phases, lowPhase, fallingPhase, highPhase]
  simp [hswap, hA, hg, hM, hincg, hdrv, hGPC, hlatch, and_mask_idem,
    hpcfix, hpcfix2]

/-- Claim C4: after the compute phase of any tick — whatever the control word —
bit 1 (Z) of the flag register is set exactly when the general-purpose
register's value at the end of that phase is zero; and when none of the
four flag-writing micro-operation branches (`COMF`, `CLRF`, `ROL`, `ROR`)
fires, the recomputation preserves bit 0 (F). -/
theorem zero_flag_tracks_gpr (s : State) :
    ((fallingPhase s).flg &&& 2 = 2 ↔ (fallingPhase s).gpr = 0) ∧
    (s.ctrl &&& aluInMask ≠ COMF → s.ctrl &&& aluInMask ≠ CLRF →
     s.ctrl &&& aluInMask ≠ ROL → s.ctrl &&& aluInMask ≠ ROR →
     (fallingPhase s).flg &&& 1 = s.flg &&& 1) := by
  have hdead : s.ctrl &&& aluInMask ≠ A_GPR := masked_ne _ _ _ (by decide)
  constructor
  · by_cases h1 : s.ctrl &&& aluInMask = ROR
    · simp only [fallingPhase, h1, hdead, if_neg, ite_false, if_pos, ite_true, RorAcc,
        (by decide : (ROR:Nat) ≠ ROL), (by decide : (ROR:Nat) ≠ CLRF),
        (by decide : (ROR:Nat) ≠ COMF), (by decide : (ROR:Nat) ≠ ADD),
        (by decide : (ROR:Nat) ≠ COMA), (by decide : (ROR:Nat) ≠ CLRA),
        (by decide : (ROR:Nat) ≠ A_GPR)]
      exact rot_z _ _ _
    · by_cases h2 : s.ctrl &&& aluInMask = ROL
      · simp only [fallingPhase, h2, hdead, if_neg, ite_false, if_pos, ite_true, RolAcc,
          (by decide : (ROL:Nat) ≠ ROR), (by decide : (ROL:Nat) ≠ CLRF),
          (by decide : (ROL:Nat) ≠ COMF), (by decide : (ROL:Nat) ≠ ADD),
          (by decide : (ROL:Nat) ≠ COMA), (by decide : (ROL:Nat) ≠ CLRA),
          (by decide : (ROL:Nat) ≠ A_GPR)]
        exact rot_z _ _ _
      · by_cases h3 : s.ctrl &&& aluInMask = CLRF
        · simp only [fallingPhase, h3, hdead, if_neg, ite_false, if_pos, ite_true,
            (by decide : (CLRF:Nat) ≠ ROR), (by decide : (CLRF:Nat) ≠ ROL),
            (by decide : (CLRF:Nat) ≠ COMF), (by decide : (CLRF:Nat) ≠ A_GPR)]
          exact clrf_z _ _
        · by_cases h4 : s.ctrl &&& aluInMask = COMF
          · simp only [fallingPhase, h4, hdead, if_neg, ite_false, if_pos, ite_true,
              (by decide : (COMF:Nat) ≠ ROR), (by decide : (COMF:Nat) ≠ ROL),
              (by decide : (COMF:Nat) ≠ CLRF), (by decide : (COMF:Nat) ≠ A_GPR)]
            exact comf_z _ _
          · simp only [fallingPhase, h1, h2, h3, h4, hdead, if_neg, ite_false]
            exact base_z _ _
  · intro n4 n3 n2 n1
    simp only [fallingPhase, n1, n2, n3, n4, hdead, if_neg, ite_false]
    exact base_f _ _

def sampleZ : State :=
  { bus := 0, ctrl := INCGPR, sreg := 0, pc := 0, acc := 0, gpr := 0xfff, flg := 1,
    opr := 0, mar := 0, asum := 0, mem := [], halted := false }

/-- Witness for C4 at a concrete state: an `INCGPR` tick that wraps the gpr
from 0xFFF to 0, so Z must read 1 afterwards while F (set to 1 here) is
preserved. -/
theorem zero_flag_tracks_gpr_witness :
    ((fallingPhase sampleZ).flg &&& 2 = 2 ↔ (fallingPhase sampleZ).gpr = 0) ∧
    sampleZ.ctrl &&& aluInMask ≠ COMF ∧ sampleZ.ctrl &&& aluInMask ≠ CLRF ∧
    sampleZ.ctrl &&& aluInMask ≠ ROL ∧ sampleZ.ctrl &&& aluInMask ≠ ROR ∧
    (fallingPhase sampleZ).flg &&& 1 = sampleZ.flg &&& 1 := by
  refine ⟨(zero_flag_tracks_gpr sampleZ).1, by decide, by decide, by decide, by decide, ?_⟩
  exact (zero_flag_tracks_gpr sampleZ).2 (by decide) (by decide) (by decide) (by decide)

def sampleP : State :=
  { bus := 0, ctrl := PC_GPR, sreg := 0, pc := 0x34, acc := 0, gpr := 0xA55, flg := 0,
    opr := 0, mar := 0, asum := 0, mem := [], halted := false }

/-- Witness for C8 at a concrete state whose control word is exactly
`PC_GPR` (the CSR execute block's second word). -/
theorem pc_gpr_swap_exchanges_low_bytes_witness :
    sampleP.ctrl &&& (PC_GPR ||| GPR_OP) = PC_GPR ∧ sampleP.pc < 256 ∧
    (phases sampleP).pc = 0xA55 &&& 0x00ff ∧ (phases sampleP).gpr = 0x34 := by
  refine ⟨by decide, by decide, ?_, ?_⟩
  · exact (pc_gpr_swap_exchanges_low_bytes sampleP (by decide) (by decide) (by decide)
      (by decide) (by decide) (by decide)).1
  · exact (pc_gpr_swap_exchanges_low_bytes sampleP (by decide) (by decide) (by decide)
      (by decide) (by decide) (by decide)).2.1


/-! ## Rotate characterizations (for the rotate round-trip claim) -/

theorem RolAcc_fst (a nf f : Nat) (hf : f < 2) :
    (RolAcc a nf f).1 = 2 * a % 4096 + f := by
  show (((a <<< 1) &&& 0x0fff) ||| f) &&& 0x0fff = 2 * a % 4096 + f
  simp only [shiftl1, and_4095]
  have heven : (2 * a % 4096) % 2 = 0 := by omega
  rcases (by omega : f = 0 ∨ f = 1) with rfl | rfl
  · rw [Nat.or_zero]
    omega
  · rw [or_one_of_even heven]
    omega

theorem RolAcc_snd_f (a nf f : Nat) (ha : a < 4096) :
    (RolAcc a nf f).2 &&& 1 = if 2048 ≤ a then 1 else 0 := by
  show ((if a &&& 0x0800 ≠ 0 then nf ||| 0x0001 else nf &&& 0x0002) &&& 0x0003) &&& 1 =
    if 2048 ≤ a then 1 else 0
  by_cases hb : a &&& 2048 ≠ 0
  · rw [if_pos hb, and3_and1, or1_and1, if_pos ((and_2048_iff ha).mp hb)]
  · have hle : ¬ 2048 ≤ a := fun hx => hb ((and_2048_iff ha).mpr hx)
    rw [if_neg hb, and3_and1, and2_and1, if_neg hle]

theorem RorAcc_fst (a nf f : Nat) (ha : a < 4096) (hf : f < 2) :
    (RorAcc a nf f).1 = a / 2 + 2048 * f := by
  show ((if f ≠ 0 then ((a >>> 1) &&& 0x0fff) ||| 0x0800
         else ((a >>> 1) &&& 0x0fff) ||| 0x0000) &&& 0x0fff) = a / 2 + 2048 * f
  rcases (by omega : f = 0 ∨ f = 1) with rfl | rfl
  · rw [if_neg (show ¬((0:Nat) ≠ 0) by omega)]
    simp only [shiftr1, and_4095, Nat.or_zero]
    omega
  · rw [if_pos (show (1:Nat) ≠ 0 by omega)]
    simp only [shiftr1, and_4095]
    have hlt : a / 2 % 4096 < 2048 := by omega
    rw [or_2048_of_lt hlt]
    omega

theorem RorAcc_snd_f (a nf f : Nat) :
    (RorAcc a nf f).2 &&& 1 = if a % 2 = 1 then 1 else 0 := by
  show ((if a &&& 0x0001 ≠ 0 then nf ||| 0x0001 else nf &&& 0x0002) &&& 0x0003) &&& 1 =
    if a % 2 = 1 then 1 else 0
  by_cases hb : a % 2 = 1
  · rw [if_pos (show a &&& 0x0001 ≠ 0 by rw [and_1]; omega), and3_and1, or1_and1,
      if_pos hb]
  · rw [if_neg (show ¬(a &&& 0x0001 ≠ 0) by rw [and_1]; omega), and3_and1, and2_and1,
      if_neg hb]

/-- A tick whose control word is exactly the `ROL` microword only rotates:
the accumulator and flag register end as `Adder::RolAcc` computes them from
the start-of-tick values. -/
theorem rol_phase (s : State) :
    (phases { s with ctrl := ROL }).acc =
      (RolAcc s.acc (if s.gpr ≠ 0 then s.flg &&& 1 else s.flg ||| 2)
        (if s.flg &&& 1 ≠ 0 then 1 else 0)).1 ∧
    (phases { s with ctrl := ROL }).flg =
      (RolAcc s.acc (if s.gpr ≠ 0 then s.flg &&& 1 else s.flg ||| 2)
        (if s.flg &&& 1 ≠ 0 then 1 else 0)).2 := by
  constructor <;>
  simp only [phases, lowPhase, fallingPhase, highPhase,
    (by decide : (ROL:Nat) &&& (PC_MAR ||| PC_GPR) = 0),
    (by decide : (ROL:Nat) &&& A_GPR = 0),
    (by decide : (ROL:Nat) &&& (GPR_M ||| GPR_MAR ||| GPR_OP ||| GPR_PC) = 0),
    (by decide : (ROL:Nat) &&& M_GPR = 0),
    (by decide : (ROL:Nat) &&& INCPC = 0),
    (by decide : (ROL:Nat) &&& INCA = 0),
    (by decide : (ROL:Nat) &&& INCGPR = 0),
    (by decide : ¬((ROL:Nat) &&& (PC_GPR ||| GPR_OP) = PC_GPR)),
    (by decide : ¬((ROL:Nat) &&& (PC_GPR ||| GPR_OP) = GPR_OP)),
    (by decide : (ROL:Nat) &&& aluInMask = ROL),
    (by decide : ¬((ROL:Nat) = A_GPR)),
    (by decide : ¬((ROL:Nat) = ADD)),
    (by decide : ¬((ROL:Nat) = COMA)),
    (by decide : ¬((ROL:Nat) = COMF)),
    (by decide : ¬((ROL:Nat) = CLRA)),
    (by decide : ¬((ROL:Nat) = CLRF)),
    (by decide : ¬((ROL:Nat) = ROR)),
    (by decide : (ROL:Nat) &&& (PC_GPR ||| A_GPR ||| M_GPR) = 0),
    ne_eq, if_neg, ite_false, if_pos, ite_true, not_false_eq_true] <;>
  simp

/-- A tick whose control word is exactly the `ROR` microword only rotates. -/
theorem ror_phase (s : State) :
    (phases { s with ctrl := ROR }).acc =
      (RorAcc s.acc (if s.gpr ≠ 0 then s.flg &&& 1 else s.flg ||| 2)
        (if s.flg &&& 1 ≠ 0 then 1 else 0)).1 ∧
    (phases { s with ctrl := ROR }).flg =
      (RorAcc s.acc (if s.gpr ≠ 0 then s.flg &&& 1 else s.flg ||| 2)
        (if s.flg &&& 1 ≠ 0 then 1 else 0)).2 := by
  constructor <;>
  simp only [phases, lowPhase, fallingPhase, highPhase,
    (by decide : (ROR:Nat) &&& (PC_MAR ||| PC_GPR) = 0),
    (by decide : (ROR:Nat) &&& A_GPR = 0),
    (by decide : (ROR:Nat) &&& (GPR_M ||| GPR_MAR ||| GPR_OP ||| GPR_PC) = 0),
    (by decide : (ROR:Nat) &&& M_GPR = 0),
    (by decide : (ROR:Nat) &&& INCPC = 0),
    (by decide : (ROR:Nat) &&& INCA = 0),
    (by decide : (ROR:Nat) &&& INCGPR = 0),
    (by decide : ¬((ROR:Nat) &&& (PC_GPR ||| GPR_OP) = PC_GPR)),
    (by decide : ¬((ROR:Nat) &&& (PC_GPR ||| GPR_OP) = GPR_OP)),
    (by decide : (ROR:Nat) &&& aluInMask = ROR),
    (by decide : ¬((ROR:Nat) = A_GPR)),
    (by decide : ¬((ROR:Nat) = ADD)),
    (by decide : ¬((ROR:Nat) = COMA)),
    (by decide : ¬((ROR:Nat) = COMF)),
    (by decide : ¬((ROR:Nat) = CLRA)),
    (by decide : ¬((ROR:Nat) = CLRF)),
    (by decide : ¬((ROR:Nat) = ROL)),
    (by decide : (ROR:Nat) &&& (PC_GPR ||| A_GPR ||| M_GPR) = 0),
    ne_eq, if_neg, ite_false, if_pos, ite_true, not_false_eq_true] <;>
  simp

theorem rol_ror_core (a f ua uf : Nat) (ha : a < 4096) (hf : f < 2)
    (hua : ua = 2 * a % 4096 + f)
    (huf : uf = if 2048 ≤ a then 1 else 0) :
    ua / 2 + 2048 * uf = a ∧ (if ua % 2 = 1 then 1 else 0) = f := by
  constructor
  · rcases le_or_lt 2048 a with h | h
    · rw [if_pos h] at huf
      omega
    · rw [if_neg (by omega)] at huf
      omega
  · rcases (by omega : f = 0 ∨ f = 1) with rfl | rfl
    · rw [if_neg (by omega)]
    · rw [if_pos (by omega)]

theorem ror_rol_core (a f ua uf : Nat) (ha : a < 4096) (hf : f < 2)
    (hua : ua = a / 2 + 2048 * f)
    (huf : uf = if a % 2 = 1 then 1 else 0) :
    2 * ua % 4096 + uf = a ∧ (if 2048 ≤ ua then 1 else 0) = f := by
  have h2 : uf = a % 2 := by
    rcases (by omega : a % 2 = 0 ∨ a % 2 = 1) with h | h
    · rw [if_neg (by omega)] at huf
      omega
    · rw [if_pos h] at huf
      omega
  constructor
  · omega
  · rcases (by omega : f = 0 ∨ f = 1) with rfl | rfl
    · rw [if_neg (by omega)]
    · rw [if_pos (by omega)]

/-- Claim C5: for every 12-bit accumulator value and either carry state, a
rotate-left tick followed (on any state with the same accumulator and carry
bit) by a rotate-right tick restores the original accumulator and the
original carry flag F, and vice versa. -/
theorem rotate_round_trip (s u : State) (hacc : s.acc < 4096) :
    ((u.acc = (phases { s with ctrl := ROL }).acc ∧
      u.flg &&& 1 = (phases { s with ctrl := ROL }).flg &&& 1) →
     (phases { u with ctrl := ROR }).acc = s.acc ∧
     (phases { u with ctrl := ROR }).flg &&& 1 = s.flg &&& 1) ∧
    ((u.acc = (phases { s with ctrl := ROR }).acc ∧
      u.flg &&& 1 = (phases { s with ctrl := ROR }).flg &&& 1) →
     (phases { u with ctrl := ROL }).acc = s.acc ∧
     (phases { u with ctrl := ROL }).flg &&& 1 = s.flg &&& 1) := by
  have hfF : ∀ x : Nat, (if x &&& 1 ≠ 0 then 1 else 0) = x &&& 1 := by
    intro x
    rw [and_1]
    rcases Nat.mod_two_eq_zero_or_one x with h | h <;> simp [h]
  have hflt : ∀ x : Nat, x &&& 1 < 2 := by
    intro x
    rw [and_1]
    omega
  constructor
  · rintro ⟨hua, huf⟩
    rw [(rol_phase s).1, hfF, RolAcc_fst _ _ _ (hflt s.flg)] at hua
    rw [(rol_phase s).2, RolAcc_snd_f _ _ _ hacc] at huf
    have hfs := hflt s.flg
    have hu4096 : u.acc < 4096 := by omega
    rw [(ror_phase u).1, hfF, RorAcc_fst _ _ _ hu4096 (hflt u.flg),
      (ror_phase u).2, RorAcc_snd_f]
    exact rol_ror_core s.acc (s.flg &&& 1) u.acc (u.flg &&& 1) hacc (hflt s.flg) hua huf
  · rintro ⟨hua, huf⟩
    rw [(ror_phase s).1, hfF, RorAcc_fst _ _ _ hacc (hflt s.flg)] at hua
    rw [(ror_phase s).2, RorAcc_snd_f] at huf
    have hfs := hflt s.flg
    have hu4096 : u.acc < 4096 := by omega
    rw [(rol_phase u).1, hfF, RolAcc_fst _ _ _ (hflt u.flg),
      (rol_phase u).2, RolAcc_snd_f _ _ _ hu4096]
    exact ror_rol_core s.acc (s.flg &&& 1) u.acc (u.flg &&& 1) hacc (hflt s.flg) hua huf

def sampleR : State :=
  { bus := 0, ctrl := 0, sreg := 0, pc := 0, acc := 0x801, gpr := 3, flg := 1,
    opr := 0, mar := 0, asum := 0, mem := [], halted := false }

/-- Witness for C5: a rotate-left tick then a rotate-right tick on a
concrete state (accumulator 0x801, carry set) restores both. -/
theorem rotate_round_trip_witness :
    sampleR.acc < 4096 ∧
    (phases { phases { sampleR with ctrl := ROL } with ctrl := ROR }).acc =
      sampleR.acc ∧
    (phases { phases { sampleR with ctrl := ROL } with ctrl := ROR }).flg &&& 1 =
      sampleR.flg &&& 1 := by
  refine ⟨by decide, ?_, ?_⟩
  · exact ((rotate_round_trip sampleR (phases { sampleR with ctrl := ROL })
      (by decide)).1 ⟨rfl, rfl⟩).1
  · exact ((rotate_round_trip sampleR (phases { sampleR with ctrl := ROL })
      (by decide)).1 ⟨rfl, rfl⟩).2

/-- Claim C9: halt is terminal.  If decoding a running state asserts the halt
bit, the simulation stops inside that tick's decode: every register, the
memory, the data bus and the adder buffer are unchanged after the halt tick
and after arbitrarily many further ticks; only the control word and the
halt flag change. -/
theorem halt_is_terminal (s : State) (n : Nat)
    (h0 : s.halted = false) (h1 : (decodePhase s).halted = true) :
    (tick^[n + 1] s).pc = s.pc ∧ (tick^[n + 1] s).acc = s.acc ∧
    (tick^[n + 1] s).gpr = s.gpr ∧ (tick^[n + 1] s).flg = s.flg ∧
    (tick^[n + 1] s).opr = s.opr ∧ (tick^[n + 1] s).mar = s.mar ∧
    (tick^[n + 1] s).sreg = s.sreg ∧ (tick^[n + 1] s).bus = s.bus ∧
    (tick^[n + 1] s).asum = s.asum ∧ (tick^[n + 1] s).mem = s.mem ∧
    (tick^[n + 1] s).halted = true := by
  have ht : tick s = decodePhase s := by
    simp [tick, h0, h1]
  have hiter : tick^[n + 1] s = decodePhase s := by
    rw [Function.iterate_succ_apply, ht]
    exact iterate_tick_halted h1 n
  by_cases hc : rawControlWord s &&& CLRSC ≠ 0
  · exfalso
    rw [decode_clrsc hc] at h1
    simp at h1
    rw [h0] at h1
    exact Bool.false_ne_true h1
  · by_cases hh : rawControlWord s &&& HLT ≠ 0
    · have hd : decodePhase s = { s with ctrl := rawControlWord s, halted := true } := by
        simp [decodePhase, hc, hh]
      rw [hiter, hd]
      exact ⟨rfl, rfl, rfl, rfl, rfl, rfl, rfl, rfl, rfl, rfl, rfl⟩
    · exfalso
      have hd : decodePhase s = { s with ctrl := rawControlWord s } := by
        simp [decodePhase, hc, hh]
      rw [hd] at h1
      simp at h1
      rw [h0] at h1
      exact Bool.false_ne_true h1

/-- Witness for C9 at the run's halting tick: the decode of the state after
177 ticks asserts halt, and three ticks later nothing has changed. -/
theorem halt_is_terminal_witness :
    (run 177).halted = false ∧ (decodePhase (run 177)).halted = true ∧
    (tick^[3] (run 177)).mem = (run 177).mem ∧
    (tick^[3] (run 177)).acc = (run 177).acc := by
  have h := halt_is_terminal (run 177) 2 (by decide) (by decide)
  exact ⟨by decide, by decide, h.2.2.2.2.2.2.2.2.2.1, h.2.1⟩

/-- Claim C10: the width invariant of the generic `Register`: masking the stored
value with the register's bit mask leaves it unchanged.  It holds after
`Reset`, and each of `Set`, `Increment`, `FallingEdge` and `LowLevel`
re-establishes or preserves it; consequently, when `HighLevel` drives the
bus, the driven value (the raw store, no mask applied on the drive path)
is itself within the declared width. -/
theorem register_width_invariant (r : Register) (bus ctrl data : Nat)
    (h : r.widthInv) :
    (Register.Reset r).widthInv ∧ (Register.Set r data).widthInv ∧
    (Register.Increment r).widthInv ∧ (Register.FallingEdge r ctrl).widthInv ∧
    (Register.LowLevel r bus ctrl).widthInv ∧
    (ctrl &&& r.mOutMask ≠ 0 →
      Register.HighLevel r bus ctrl = r.mStore ∧
      Register.HighLevel r bus ctrl &&& r.mBitMask = Register.HighLevel r bus ctrl) := by
  refine ⟨?_, ?_, ?_, ?_, ?_, ?_⟩
  · simp [Register.Reset, Register.widthInv]
  · simp [Register.Set, Register.widthInv, and_mask_idem]
  · simp [Register.Increment, Register.widthInv, and_mask_idem]
  · unfold Register.FallingEdge
    split
    · simp [Register.Increment, Register.widthInv, and_mask_idem]
    · exact h
  · unfold Register.LowLevel
    split
    · simp [Register.widthInv, and_mask_idem]
    · exact h
  · intro hc
    rw [Register.HighLevel, if_pos hc]
    exact ⟨rfl, h⟩

/-- Witness for C10 on a concrete 8-bit register holding 5, driven by a
control word matching its out-mask. -/
theorem register_width_invariant_witness :
    (Register.mk 5 0 3 0 0x00ff).widthInv ∧
    (Register.Increment (Register.mk 5 0 3 0 0x00ff)).widthInv ∧
    ((2:Nat) &&& 3 ≠ 0 ∧
      Register.HighLevel (Register.mk 5 0 3 0 0x00ff) 7 2 = 5) := by
  have h := register_width_invariant (Register.mk 5 0 3 0 0x00ff) 7 2 9
    (by unfold Register.widthInv; decide)
  exact ⟨by unfold Register.widthInv; decide, h.2.2.1, by decide,
    (h.2.2.2.2.2 (by decide)).1⟩


end ISC
